import Mathlib

/-!
Verification of the workload/saturation calculator
(`src/core/data_processor.py`, class `WorkloadDataProcessor`, together with
`DataValidator.validate_config` from `src/utils/validators.py`).

Modelling choices:
* Python floats are modelled by `ℚ` (the computations are plain field
  arithmetic and comparisons); `float('inf')` produced by the change-rate
  branch is modelled by `none : Option ℚ`.
* Calendar dates are modelled by their proleptic Gregorian ordinal as an
  integer (`datetime.date.toordinal`); ordinal 1 (0001-01-01) is a Monday,
  so `weekday o = (o + 6) % 7` with 0 = Monday, matching
  `datetime.date.weekday`.
* Python `round(x, 1)` rounds to the nearest tenth, ties to even
  (`roundHalfEven`).
* A pandas `DataFrame` is modelled by `InputTable`: the parsed date column
  headers (`df.columns[1:]`, each either a parsed date or `none` when
  `strptime` fails, mirroring lines 146-152) and a list of member rows whose
  hour cells are aligned with the headers.  `row['成员']` raising `KeyError`
  when no such column exists is modelled by `rowMember`.
* `result_df.sort_values(col, ascending=False)` (line 243) is modelled by
  `sort_values_desc`: for `ascending=False` pandas `nargsort` reverses the
  values and the index positions, takes a stable ascending `argsort` (the
  numpy `kind='quicksort'` kernel is a stable insertion sort below its
  small-array cutoff), and reverses the resulting indexer again — on the
  list level the output is the reverse of a stable ascending sort of the
  reversed rows, so tied keys keep their original input order.
* `sort_values` on the empty `DataFrame` built from an empty result list has
  no columns and raises `KeyError` for the sort column; `calculate_workload`
  mirrors that control flow with `Except`.
-/

/-- The four status labels returned by `WorkloadDataProcessor.get_status`
(lines 89-106): 空闲 / 不饱和 / 正常 / 超负荷. -/
inductive Status where
  | idle
  | under_saturated
  | normal
  | overloaded
  deriving DecidableEq, Repr

/-- `WorkloadDataProcessor.get_status` (lines 99-106): the threshold
classifier, reading only `under_saturated_max` (`u`) and `normal_max` (`n`). -/
def get_status (u n sat : ℚ) : Status :=
  if sat = 0 then .idle
  else if sat < u then .under_saturated
  else if sat ≤ n then .normal
  else .overloaded

/-- The `other_tasks` sub-dictionary of the configuration; `none` fields model
absent keys (looked up with `dict.get` and a default). -/
structure OtherTasksCfg where
  enabled : Option Bool
  weekly_minutes_per_person : Option ℚ
  deriving DecidableEq, Repr

/-- The `primary_responsibility` sub-dictionary of the configuration. -/
structure PrimaryRespCfg where
  enabled : Option Bool
  weekly_percentage : Option ℚ
  deriving DecidableEq, Repr

/-- The `saturation_thresholds` sub-dictionary of the configuration. -/
structure ThresholdsCfg where
  under_saturated_max : Option ℚ
  normal_min : Option ℚ
  normal_max : Option ℚ
  over_saturated_min : Option ℚ
  deriving DecidableEq, Repr

/-- A configuration dictionary as consumed by `WorkloadDataProcessor.__init__`
and `DataValidator.validate_config`; `none` models an absent key. -/
structure ConfigDict where
  standard_hours_per_week : Option ℚ
  other_tasks : Option OtherTasksCfg
  primary_responsibility : Option PrimaryRespCfg
  saturation_thresholds : Option ThresholdsCfg
  deriving DecidableEq, Repr

def emptyOther : OtherTasksCfg := ⟨none, none⟩

def emptyPrimary : PrimaryRespCfg := ⟨none, none⟩

def emptyThresholds : ThresholdsCfg := ⟨none, none, none, none⟩

/-- The empty configuration dictionary (every key absent). -/
def cfgEmpty : ConfigDict := ⟨none, none, none, none⟩

/-- The default configuration shipped by
`utils/config_loader.get_default_config`. -/
def cfgDefault : ConfigDict :=
  ⟨some 40, some ⟨some true, some 92⟩, some ⟨some true, some 0.5⟩,
   some ⟨some 90, some 90, some 110, some 110⟩⟩

/-- The fields `WorkloadDataProcessor.__init__` derives from the config
(lines 29-44). -/
structure ProcState where
  standard_hours : ℚ
  other_tasks_enabled : Bool
  other_tasks_minutes : ℚ
  other_tasks_hours : ℚ
  primary_responsibility_enabled : Bool
  primary_responsibility_percentage : ℚ
  primary_responsibility_hours : ℚ
  under_saturated_max : ℚ
  normal_max : ℚ
  deriving DecidableEq, Repr

/-- `WorkloadDataProcessor.__init__` (lines 29-44): every lookup uses
`dict.get` with a default, so absent keys are silently replaced by
40 / enabled / 92 / enabled / 0.5 / 90 / 110 and no validation happens. -/
def processorInit (config : ConfigDict) : ProcState :=
  let standard_hours := config.standard_hours_per_week.getD 40
  let ot := config.other_tasks.getD emptyOther
  let other_tasks_enabled := ot.enabled.getD true
  let other_tasks_minutes := ot.weekly_minutes_per_person.getD 92
  let other_tasks_hours := if other_tasks_enabled then other_tasks_minutes / 60 else 0
  let pr := config.primary_responsibility.getD emptyPrimary
  let primary_responsibility_enabled := pr.enabled.getD true
  let primary_responsibility_percentage := pr.weekly_percentage.getD 0.5
  let primary_responsibility_hours :=
    if primary_responsibility_enabled then standard_hours * primary_responsibility_percentage else 0
  let th := config.saturation_thresholds.getD emptyThresholds
  let under_saturated_max := th.under_saturated_max.getD 90
  let normal_max := th.normal_max.getD 110
  ⟨standard_hours, other_tasks_enabled, other_tasks_minutes, other_tasks_hours,
   primary_responsibility_enabled, primary_responsibility_percentage,
   primary_responsibility_hours, under_saturated_max, normal_max⟩

/-- `datetime.date.weekday` on the proleptic Gregorian ordinal:
0 = Monday .. 6 = Sunday (ordinal 1, 0001-01-01, is a Monday). -/
def weekday (ordinal : ℤ) : ℤ := (ordinal + 6) % 7

/-- `WorkloadDataProcessor.get_week_range` (lines 67-87): Monday and Sunday of
the week `weeks_offset` weeks after the week containing `base_date`
(`timedelta(weeks=w)` is `7*w` days). -/
def get_week_range (base_date : ℤ) (weeks_offset : ℤ) : ℤ × ℤ :=
  let current_monday := base_date - weekday base_date
  let target_monday := current_monday + 7 * weeks_offset
  let target_sunday := target_monday + 6
  (target_monday, target_sunday)

/-- Whether a parsed date column header falls inside the closed window
(lines 155-168); an unparseable header (`none`) is in no window. -/
def inWindow (startD endD : ℤ) : Option ℤ → Bool
  | some d => decide (startD ≤ d) && decide (d ≤ endD)
  | none => false

/-- `row[week_cols].sum()` (lines 183, 189, 195): the sum of the hour cells
whose column header parses to a date inside the window; the empty selection
sums to 0, matching the `if week_cols else 0` guard. -/
def projectHours (dateHeaders : List (Option ℤ)) (hours : List ℚ)
    (startD endD : ℤ) : ℚ :=
  ((dateHeaders.zip hours).filter (fun c => inWindow startD endD c.1)).foldl
    (fun a c => a + c.2) 0

/-- The saturation expression
`(total / standard_hours) * 100 if standard_hours > 0 else 0`
(lines 186, 192, 198). -/
def saturation (standard_hours total : ℚ) : ℚ :=
  if standard_hours > 0 then total / standard_hours * 100 else 0

/-- Round to the nearest integer, ties to even (the rounding of Python
`round`). -/
def roundHalfEven (x : ℚ) : ℤ :=
  let f := ⌊x⌋
  let r := x - f
  if r < 1 / 2 then f
  else if 1 / 2 < r then f + 1
  else if f % 2 = 0 then f else f + 1

/-- Python `round(x, 1)`: round to one decimal place. -/
def round1 (x : ℚ) : ℚ := (roundHalfEven (x * 10) : ℚ) / 10

/-- Lines 200-213: `(change, change_rate)` for one week transition.
`none` in the second component models `float('inf')`. -/
def changePair (prev_total cur_total : ℚ) : ℚ × Option ℚ :=
  if prev_total > 0 then
    (cur_total - prev_total, some ((cur_total - prev_total) / prev_total * 100))
  else
    (cur_total, if cur_total = 0 then some 0 else none)

/-- Lines 229, 236: the persisted change rate,
`round(rate, 1) if rate != float('inf') else 0`. -/
def persistRate : Option ℚ → ℚ
  | some r => round1 r
  | none => 0

/-- One member row: the value under the `成员` column and the hour cells,
aligned with the table's date column headers. -/
structure MemberRow where
  member : String
  hours : List ℚ
  deriving DecidableEq, Repr

/-- One persisted result row (the dict built at lines 215-237); `cw`/`nw`/`nnw`
are 本周/下周/下下周.  Saturation, change and change-rate fields hold the
rounded persisted figures, exactly as the dict does. -/
structure ResultRow where
  member : String
  is_primary : Bool
  cw_project : ℚ
  cw_other : ℚ
  cw_total : ℚ
  cw_saturation : ℚ
  cw_status : Status
  nw_project : ℚ
  nw_other : ℚ
  nw_total : ℚ
  nw_saturation : ℚ
  nw_status : Status
  nw_change : ℚ
  nw_change_rate : ℚ
  nnw_project : ℚ
  nnw_other : ℚ
  nnw_total : ℚ
  nnw_saturation : ℚ
  nnw_status : Status
  nnw_change : ℚ
  nnw_change_rate : ℚ
  deriving DecidableEq, Repr

/-- The loop body of `calculate_workload` for a single member row
(lines 175-237). -/
def memberResult (st : ProcState) (primary_members : List String)
    (dateHeaders : List (Option ℤ)) (row : MemberRow) (base_date : ℤ) :
    ResultRow :=
  let is_primary := primary_members.contains row.member
  let primary_hours := if is_primary then st.primary_responsibility_hours else 0
  let cw_project :=
    projectHours dateHeaders row.hours (get_week_range base_date 0).1 (get_week_range base_date 0).2
  let cw_other := st.other_tasks_hours + primary_hours
  let cw_total := cw_project + cw_other
  let cw_sat := saturation st.standard_hours cw_total
  let nw_project :=
    projectHours dateHeaders row.hours (get_week_range base_date 1).1 (get_week_range base_date 1).2
  let nw_other := st.other_tasks_hours + primary_hours
  let nw_total := nw_project + nw_other
  let nw_sat := saturation st.standard_hours nw_total
  let nnw_project :=
    projectHours dateHeaders row.hours (get_week_range base_date 2).1 (get_week_range base_date 2).2
  let nnw_other := st.other_tasks_hours + primary_hours
  let nnw_total := nnw_project + nnw_other
  let nnw_sat := saturation st.standard_hours nnw_total
  let nc := changePair cw_total nw_total
  let nnc := changePair nw_total nnw_total
  { member := row.member
    is_primary := is_primary
    cw_project := cw_project
    cw_other := cw_other
    cw_total := cw_total
    cw_saturation := round1 cw_sat
    cw_status := get_status st.under_saturated_max st.normal_max cw_sat
    nw_project := nw_project
    nw_other := nw_other
    nw_total := nw_total
    nw_saturation := round1 nw_sat
    nw_status := get_status st.under_saturated_max st.normal_max nw_sat
    nw_change := round1 nc.1
    nw_change_rate := persistRate nc.2
    nnw_project := nnw_project
    nnw_other := nnw_other
    nnw_total := nnw_total
    nnw_saturation := round1 nnw_sat
    nnw_status := get_status st.under_saturated_max st.normal_max nnw_sat
    nnw_change := round1 nnc.1
    nnw_change_rate := persistRate nnc.2 }

/-- Stable ascending insertion of `x` into `l` (the element moves left only
past strictly greater keys), as numpy's small-array insertion sort does. -/
def insertAsc {α : Type} (key : α → ℚ) (x : α) : List α → List α
  | [] => [x]
  | y :: ys => if key x < key y then x :: y :: ys else y :: insertAsc key x ys

/-- Stable ascending insertion sort by `key` (numpy `argsort` with
`kind='quicksort'` below the small-array cutoff). -/
def sortAsc {α : Type} (key : α → ℚ) (l : List α) : List α :=
  l.foldl (fun acc x => insertAsc key x acc) []

/-- `DataFrame.sort_values(col, ascending=False)` (line 243): pandas
`nargsort` reverses the values and the index positions, takes the stable
ascending `argsort`, and reverses the resulting indexer again, so the row
order is the reverse of a stable ascending sort of the reversed rows (the
two reversals cancel on tied keys). -/
def sort_values_desc {α : Type} (key : α → ℚ) (l : List α) : List α :=
  (sortAsc key l.reverse).reverse

/-- The failures `calculate_workload` can raise, plus the structural-input
failure category that `DataValidator.validate_excel_structure` reports
(the latter is never produced by `calculate_workload` itself). -/
inductive WorkloadError where
  | structuralInput (msg : String)
  | keyError (column : String)
  deriving DecidableEq, Repr

/-- The input `DataFrame`: whether a column labeled `成员` exists, the parsed
date column headers `df.columns[1:]`, and the member rows. -/
structure InputTable where
  hasMemberColumn : Bool
  dateHeaders : List (Option ℤ)
  rows : List MemberRow
  deriving DecidableEq, Repr

/-- `row['成员']` (line 176): a `KeyError` when the table has no `成员`
column, the member name otherwise. -/
def rowMember (hasMemberColumn : Bool) (row : MemberRow) :
    Except WorkloadError String :=
  if hasMemberColumn then .ok row.member else .error (.keyError "成员")

/-- The `for _, row in df.iterrows()` loop (lines 175-237): each iteration
first looks the member name up and then builds the result dict; the first
failing lookup aborts the loop. -/
def processRows (st : ProcState) (primary_members : List String)
    (dateHeaders : List (Option ℤ)) (base_date : ℤ) (hasMemberColumn : Bool) :
    List MemberRow → Except WorkloadError (List ResultRow)
  | [] => .ok []
  | r :: rs =>
    match rowMember hasMemberColumn r with
    | .error e => .error e
    | .ok _ =>
      match processRows st primary_members dateHeaders base_date hasMemberColumn rs with
      | .error e => .error e
      | .ok l => .ok (memberResult st primary_members dateHeaders r base_date :: l)

/-- `WorkloadDataProcessor.calculate_workload` (lines 108-261) for a fixed
base date: run the per-row loop, then sort the result rows.  When the loop
produced no rows, `pd.DataFrame([])` has no columns and
`sort_values('下周饱和度(%)')` raises a `KeyError` for the sort column. -/
def calculate_workload (st : ProcState) (t : InputTable)
    (primary_members : List String) (base_date : ℤ) :
    Except WorkloadError (List ResultRow) :=
  match processRows st primary_members t.dateHeaders base_date t.hasMemberColumn t.rows with
  | .error e => .error e
  | .ok results =>
    if results = [] then .error (.keyError "下周饱和度(%)")
    else .ok (sort_values_desc (fun r => r.nw_saturation) results)

/-- Whether a `calculate_workload` outcome is a structural-input failure. -/
def isStructuralError : Except WorkloadError (List ResultRow) → Bool
  | .error (.structuralInput _) => true
  | _ => false

/-- The per-threshold-key presence and non-negativity checks of
`DataValidator.validate_config` (lines 184-190). -/
def checkThresholdKey (name : String) (v : Option ℚ) : Option String :=
  match v with
  | none => some ("缺少饱和度阈值配置: " ++ name)
  | some x => if x < 0 then some ("饱和度阈值必须为非负数: " ++ name) else none

/-- `DataValidator.validate_config` (`src/utils/validators.py`, lines
156-197): required keys, positive standard hours bounded by 168, the four
threshold keys present and non-negative, and the monotone ordering
`under_saturated_max ≤ normal_min ≤ normal_max ≤ over_saturated_min`. -/
def validate_config (config : ConfigDict) : Bool × Option String :=
  if config.standard_hours_per_week.isNone then
    (false, some "缺少必需配置项: standard_hours_per_week")
  else if config.other_tasks.isNone then
    (false, some "缺少必需配置项: other_tasks")
  else if config.saturation_thresholds.isNone then
    (false, some "缺少必需配置项: saturation_thresholds")
  else
    let standard_hours := config.standard_hours_per_week.getD 0
    if standard_hours ≤ 0 then (false, some "标准工时必须为正数")
    else if standard_hours > 168 then
      (false, some "标准工时不能超过168小时(一周总时长)")
    else
      let th := config.saturation_thresholds.getD emptyThresholds
      match checkThresholdKey "under_saturated_max" th.under_saturated_max with
      | some m => (false, some m)
      | none =>
        match checkThresholdKey "normal_min" th.normal_min with
        | some m => (false, some m)
        | none =>
          match checkThresholdKey "normal_max" th.normal_max with
          | some m => (false, some m)
          | none =>
            match checkThresholdKey "over_saturated_min" th.over_saturated_min with
            | some m => (false, some m)
            | none =>
              if th.under_saturated_max.getD 0 ≤ th.normal_min.getD 0
                  ∧ th.normal_min.getD 0 ≤ th.normal_max.getD 0
                  ∧ th.normal_max.getD 0 ≤ th.over_saturated_min.getD 0 then
                (true, none)
              else (false, some "饱和度阈值逻辑错误")

/-- Replace the `saturation_thresholds` entry of a configuration. -/
def setThresholds (c : ConfigDict) (th : ThresholdsCfg) : ConfigDict :=
  { c with saturation_thresholds := some th }

/-- Overwrite the two threshold keys the classifier never reads. -/
def overwriteNmOm (th : ThresholdsCfg) (nm om : Option ℚ) : ThresholdsCfg :=
  { th with normal_min := nm, over_saturated_min := om }

/-- A two-member table whose members have identical hour cells (8 hours on
one date column); with any fixed configuration both rows get the same
next-week saturation. -/
def tableTied : InputTable := ⟨true, [some 8], [⟨"甲", [8]⟩, ⟨"乙", [8]⟩]⟩

/-- The result row the default configuration produces for a member with 8
hours booked on the date with ordinal 8, at base date ordinal 1. -/
def rowTied (name : String) : ResultRow :=
  ⟨name, false, 0, 23 / 15, 23 / 15, 19 / 5, .under_saturated, 8, 23 / 15,
   143 / 15, 119 / 5, .under_saturated, 8, 5217 / 10, 0, 23 / 15, 23 / 15,
   19 / 5, .under_saturated, -8, -(839 / 10)⟩

/-- A table with a `成员` column and one date column but zero rows. -/
def tableEmptyRows : InputTable := ⟨true, [some 8], []⟩

/-- A table with no `成员` column and one member row. -/
def tableNoMemberCol : InputTable := ⟨false, [some 8], [⟨"甲", [8]⟩]⟩

/-- A well-formed one-member table: 8 hours on the date with ordinal 8. -/
def tableOneRow : InputTable := ⟨true, [some 8], [⟨"甲", [8]⟩]⟩

/-- A configuration whose `standard_hours_per_week` is 0 (invalid per the
validator, accepted by the processor). -/
def cfgZeroStd : ConfigDict :=
  ⟨some 0, some ⟨some true, some 60⟩, some ⟨some false, some 0.5⟩,
   some ⟨some 90, some 90, some 110, some 110⟩⟩

/-- C3: for every base date and week offset in {0, 1, 2}, `get_week_range`
returns `(start, end)` with `start = base_date - base_date.weekday() + 7 *
offset` days, `end = start + 6` days, and `start` a Monday (weekday 0).  The
function is a pure total Lean function, matching the side-effect-free Python
code. -/
theorem c3_week_window (base_date weeks_offset : ℤ)
    (h : weeks_offset = 0 ∨ weeks_offset = 1 ∨ weeks_offset = 2) :
    (get_week_range base_date weeks_offset).1
        = base_date - weekday base_date + 7 * weeks_offset
    ∧ (get_week_range base_date weeks_offset).2
        = (get_week_range base_date weeks_offset).1 + 6
    ∧ weekday (get_week_range base_date weeks_offset).1 = 0 := by
  refine ⟨rfl, rfl, ?_⟩
  show (base_date - (base_date + 6) % 7 + 7 * weeks_offset + 6) % 7 = 0
  omega

/-- Witness for C3 at base date ordinal 1 (a Monday) and offset 1. -/
theorem c3_week_window_witness :
    (get_week_range 1 1).1 = 8 ∧ (get_week_range 1 1).2 = 14
    ∧ weekday (get_week_range 1 1).1 = 0 := by
  have h := c3_week_window 1 1 (Or.inr (Or.inl rfl))
  exact ⟨by rw [h.1]; decide, by rw [h.2.1, h.1]; decide, h.2.2⟩

/-- C1: the classifier returns exactly one of the four labels; saturation 0
is `idle` (and only saturation 0 is), `0 < sat < under_saturated_max` is
`under_saturated`, nonzero `under_saturated_max ≤ sat ≤ normal_max` is
`normal` (the claim itself gives `idle` precedence at saturation 0
"regardless of thresholds"), `sat > normal_max` is `overloaded`; and the
classifier never consults `normal_min` or `over_saturated_min`: replacing
those two threshold keys by anything leaves the classification unchanged.
The hypotheses `0 ≤ u ≤ n` are the spec's Configuration invariant
(non-negative, monotonically non-decreasing thresholds). -/
theorem c1_status_classification (u n sat : ℚ) (hu : 0 ≤ u) (hun : u ≤ n) :
    (get_status u n sat = .idle ∨ get_status u n sat = .under_saturated
      ∨ get_status u n sat = .normal ∨ get_status u n sat = .overloaded)
    ∧ (sat = 0 ↔ get_status u n sat = .idle)
    ∧ (0 < sat → sat < u → get_status u n sat = .under_saturated)
    ∧ (sat ≠ 0 → u ≤ sat → sat ≤ n → get_status u n sat = .normal)
    ∧ (n < sat → get_status u n sat = .overloaded)
    ∧ (∀ (c : ConfigDict) (th : ThresholdsCfg) (nm om : Option ℚ) (s : ℚ),
        get_status
          (processorInit (setThresholds c (overwriteNmOm th nm om))).under_saturated_max
          (processorInit (setThresholds c (overwriteNmOm th nm om))).normal_max s
          = get_status
              (processorInit (setThresholds c th)).under_saturated_max
              (processorInit (setThresholds c th)).normal_max s) := by
  refine ⟨?_, ?_, ?_, ?_, ?_, ?_⟩
  · unfold get_status; split_ifs <;> simp
  · unfold get_status; split_ifs with h1 <;> simp_all
  · intro h1 h2
    unfold get_status
    rw [if_neg (by linarith), if_pos h2]
  · intro h1 h2 h3
    unfold get_status
    rw [if_neg h1, if_neg (by linarith), if_pos h3]
  · intro h1
    have hs0 : sat ≠ 0 := by intro e; rw [e] at h1; linarith
    unfold get_status
    rw [if_neg hs0, if_neg (by linarith), if_neg (by linarith)]
  · intro c th nm om s; rfl

/-- Witness for C1 at thresholds 90/110 and saturation 150. -/
theorem c1_status_classification_witness :
    get_status 90 110 150 = .overloaded :=
  (c1_status_classification 90 110 150 (by norm_num) (by norm_num)).2.2.2.2.1
    (by norm_num)

/-- C7: with overhead, standard hours and thresholds fixed, increasing the
project hours never decreases the saturation percentage, and never moves the
status out of `overloaded` into a lower bucket.  `0 ≤ n` is the spec's
non-negativity invariant on the configured `normal_max`. -/
theorem c7_monotonicity (oh std u n p q : ℚ) (hpq : p ≤ q) (hn : 0 ≤ n) :
    saturation std (p + oh) ≤ saturation std (q + oh)
    ∧ (get_status u n (saturation std (p + oh)) = .overloaded →
        get_status u n (saturation std (q + oh)) = .overloaded) := by
  have hmono : saturation std (p + oh) ≤ saturation std (q + oh) := by
    unfold saturation
    split_ifs with hstd
    · exact mul_le_mul_of_nonneg_right
        ((div_le_div_iff_of_pos_right hstd).mpr (by linarith)) (by norm_num)
    · exact le_refl 0
  refine ⟨hmono, ?_⟩
  intro hover
  unfold get_status at hover ⊢
  by_cases h0 : saturation std (p + oh) = 0
  · rw [if_pos h0] at hover; exact absurd hover (by simp)
  rw [if_neg h0] at hover
  by_cases h1 : saturation std (p + oh) < u
  · rw [if_pos h1] at hover; exact absurd hover (by simp)
  rw [if_neg h1] at hover
  by_cases h2 : saturation std (p + oh) ≤ n
  · rw [if_pos h2] at hover; exact absurd hover (by simp)
  push_neg at h1 h2
  have hs20 : saturation std (q + oh) ≠ 0 := by
    intro e
    have := hmono
    rw [e] at this
    linarith
  have hs2u : ¬ saturation std (q + oh) < u := by push_neg; linarith
  have hs2n : ¬ saturation std (q + oh) ≤ n := by push_neg; linarith
  rw [if_neg hs20, if_neg hs2u, if_neg hs2n]

/-- Witness for C7: project hours 50 → 60 at standard 40, thresholds 90/110. -/
theorem c7_monotonicity_witness :
    get_status 90 110 (saturation 40 (60 + 0)) = .overloaded :=
  (c7_monotonicity 0 40 90 110 50 60 (by norm_num) (by norm_num)).2
    (by norm_num [saturation, get_status])

/-- Folding addition of the second components over a list of non-negative
cells, starting from a non-negative accumulator, stays non-negative. -/
theorem foldl_add_snd_nonneg :
    ∀ (l : List (Option ℤ × ℚ)) (a : ℚ), 0 ≤ a → (∀ c ∈ l, 0 ≤ c.2) →
      0 ≤ l.foldl (fun s c => s + c.2) a
  | [], _, ha, _ => ha
  | c :: cs, a, ha, h =>
    foldl_add_snd_nonneg cs (a + c.2)
      (by have := h c (List.mem_cons_self c cs); linarith)
      (fun x hx => h x (List.mem_cons_of_mem c hx))

/-- Project hours are non-negative when every hour cell is. -/
theorem projectHours_nonneg (hdrs : List (Option ℤ)) (hours : List ℚ)
    (a b : ℤ) (h : ∀ x ∈ hours, 0 ≤ x) : 0 ≤ projectHours hdrs hours a b := by
  unfold projectHours
  refine foldl_add_snd_nonneg _ 0 le_rfl ?_
  intro c hc
  obtain ⟨c1, c2⟩ := c
  have hc' : (c1, c2) ∈ hdrs.zip hours := List.mem_of_mem_filter hc
  exact h c2 (List.of_mem_zip hc').2

/-- C2: when the configured standard hours are positive, each week's
saturation is exactly `(project_hours + overhead) / standard_hours * 100`
with `project_hours` the sum of the member's hour cells whose parsed date
header lies inside that week's window; only the persisted figure is rounded
to one decimal, and the persisted status is computed from the unrounded
saturation. -/
theorem c2_saturation_formula (st : ProcState) (pm : List String)
    (hdrs : List (Option ℤ)) (row : MemberRow) (base : ℤ) (r : ResultRow)
    (hr : r = memberResult st pm hdrs row base)
    (hsh : 0 < st.standard_hours) :
    (r.cw_project
        = projectHours hdrs row.hours (get_week_range base 0).1 (get_week_range base 0).2
      ∧ r.cw_total = r.cw_project + r.cw_other
      ∧ saturation st.standard_hours r.cw_total = r.cw_total / st.standard_hours * 100
      ∧ r.cw_saturation = round1 (saturation st.standard_hours r.cw_total)
      ∧ r.cw_status
        = get_status st.under_saturated_max st.normal_max (saturation st.standard_hours r.cw_total))
    ∧ (r.nw_project
        = projectHours hdrs row.hours (get_week_range base 1).1 (get_week_range base 1).2
      ∧ r.nw_total = r.nw_project + r.nw_other
      ∧ saturation st.standard_hours r.nw_total = r.nw_total / st.standard_hours * 100
      ∧ r.nw_saturation = round1 (saturation st.standard_hours r.nw_total)
      ∧ r.nw_status
        = get_status st.under_saturated_max st.normal_max (saturation st.standard_hours r.nw_total))
    ∧ (r.nnw_project
        = projectHours hdrs row.hours (get_week_range base 2).1 (get_week_range base 2).2
      ∧ r.nnw_total = r.nnw_project + r.nnw_other
      ∧ saturation st.standard_hours r.nnw_total = r.nnw_total / st.standard_hours * 100
      ∧ r.nnw_saturation = round1 (saturation st.standard_hours r.nnw_total)
      ∧ r.nnw_status
        = get_status st.under_saturated_max st.normal_max (saturation st.standard_hours r.nnw_total)) := by
  subst hr
  have hs : ∀ x : ℚ, saturation st.standard_hours x = x / st.standard_hours * 100 := by
    intro x; unfold saturation; rw [if_pos hsh]
  exact ⟨⟨rfl, rfl, hs _, rfl, rfl⟩, ⟨rfl, rfl, hs _, rfl, rfl⟩, ⟨rfl, rfl, hs _, rfl, rfl⟩⟩

/-- Witness for C2 with the default configuration and one member. -/
theorem c2_saturation_formula_witness :
    (memberResult (processorInit cfgDefault) [] [some 8] ⟨"甲", [8]⟩ 1).nw_saturation
      = round1 (saturation (processorInit cfgDefault).standard_hours
          (memberResult (processorInit cfgDefault) [] [some 8] ⟨"甲", [8]⟩ 1).nw_total) :=
  (c2_saturation_formula (processorInit cfgDefault) [] [some 8] ⟨"甲", [8]⟩ 1 _ rfl
    (by norm_num [processorInit, cfgDefault])).2.1.2.2.2.1

/-- C6: the overhead is `other_tasks` hours (when enabled, else 0) plus the
primary-responsibility hours exactly when primary responsibility is enabled
and the member is in the primary-members list (else 0), and it is identical
across the three weeks. -/
theorem c6_overhead (config : ConfigDict) (pm : List String)
    (hdrs : List (Option ℤ)) (row : MemberRow) (base : ℤ) (r : ResultRow)
    (hr : r = memberResult (processorInit config) pm hdrs row base) :
    r.cw_other = r.nw_other ∧ r.nw_other = r.nnw_other
    ∧ r.cw_other =
        (if ((config.other_tasks.getD emptyOther).enabled.getD true) = true
            then (config.other_tasks.getD emptyOther).weekly_minutes_per_person.getD 92 / 60
            else 0)
          + (if ((config.primary_responsibility.getD emptyPrimary).enabled.getD true) = true
                ∧ pm.contains row.member = true
              then (config.standard_hours_per_week.getD 40)
                  * ((config.primary_responsibility.getD emptyPrimary).weekly_percentage.getD 0.5)
              else 0) := by
  subst hr
  refine ⟨rfl, rfl, ?_⟩
  show (processorInit config).other_tasks_hours
      + (if pm.contains row.member
          then (processorInit config).primary_responsibility_hours else 0) = _
  simp only [processorInit]
  by_cases hot : (config.other_tasks.getD emptyOther).enabled.getD true
  <;> by_cases hpr : (config.primary_responsibility.getD emptyPrimary).enabled.getD true
  <;> by_cases hm : pm.contains row.member
  <;> simp [hot, hpr, hm]

/-- Witness for C6 with the default configuration and a primary member. -/
theorem c6_overhead_witness :
    (memberResult (processorInit cfgDefault) ["甲"] [some 8] ⟨"甲", [8]⟩ 1).cw_other
      = (memberResult (processorInit cfgDefault) ["甲"] [some 8] ⟨"甲", [8]⟩ 1).nw_other :=
  (c6_overhead cfgDefault ["甲"] [some 8] ⟨"甲", [8]⟩ 1 _ rfl).1

/-- C10: when the configured standard hours are not positive, no division is
attempted (the guard takes the `else 0` branch): every week's persisted
saturation is 0, while totals, changes and change rates are still produced by
the usual formulas. -/
theorem c10_nonpositive_standard_hours (st : ProcState) (pm : List String)
    (hdrs : List (Option ℤ)) (row : MemberRow) (base : ℤ) (r : ResultRow)
    (hr : r = memberResult st pm hdrs row base)
    (hsh : st.standard_hours ≤ 0) :
    r.cw_saturation = 0 ∧ r.nw_saturation = 0 ∧ r.nnw_saturation = 0
    ∧ r.cw_total = r.cw_project + r.cw_other
    ∧ r.nw_total = r.nw_project + r.nw_other
    ∧ r.nnw_total = r.nnw_project + r.nnw_other
    ∧ r.nw_change = round1 (changePair r.cw_total r.nw_total).1
    ∧ r.nw_change_rate = persistRate (changePair r.cw_total r.nw_total).2
    ∧ r.nnw_change = round1 (changePair r.nw_total r.nnw_total).1
    ∧ r.nnw_change_rate = persistRate (changePair r.nw_total r.nnw_total).2 := by
  subst hr
  have h0 : ∀ x : ℚ, saturation st.standard_hours x = 0 := by
    intro x; unfold saturation; rw [if_neg (not_lt.mpr hsh)]
  have hr10 : round1 0 = 0 := by norm_num [round1, roundHalfEven]
  refine ⟨?_, ?_, ?_, rfl, rfl, rfl, rfl, rfl, rfl, rfl⟩
  · show round1 (saturation st.standard_hours _) = 0
    rw [h0, hr10]
  · show round1 (saturation st.standard_hours _) = 0
    rw [h0, hr10]
  · show round1 (saturation st.standard_hours _) = 0
    rw [h0, hr10]

/-- Witness for C10: standard hours configured as 0. -/
theorem c10_nonpositive_standard_hours_witness :
    (memberResult (processorInit cfgZeroStd) [] [some 8] ⟨"甲", [8]⟩ 1).nw_saturation = 0 :=
  (c10_nonpositive_standard_hours (processorInit cfgZeroStd) [] [some 8] ⟨"甲", [8]⟩ 1 _
    rfl (by norm_num [processorInit, cfgZeroStd])).2.1

/-- C4: the persisted change and change-rate fields are produced by
`changePair`/`persistRate` applied to the week totals, the totals are
non-negative for non-negative inputs, and for non-negative previous totals:
the change equals current minus previous; a positive previous total gives
rate `change / previous * 100`; previous and current both 0 give rate 0;
previous 0 with current nonzero gives the finite persisted sentinel 0 (the
in-memory `float('inf')`, modelled by `none`, is never persisted). -/
theorem c4_change_and_rate (st : ProcState) (pm : List String)
    (hdrs : List (Option ℤ)) (row : MemberRow) (base : ℤ) (r : ResultRow)
    (hr : r = memberResult st pm hdrs row base)
    (hhours : ∀ x ∈ row.hours, 0 ≤ x)
    (hot : 0 ≤ st.other_tasks_hours)
    (hpr : 0 ≤ st.primary_responsibility_hours) :
    (r.nw_change = round1 (changePair r.cw_total r.nw_total).1
      ∧ r.nw_change_rate = persistRate (changePair r.cw_total r.nw_total).2
      ∧ r.nnw_change = round1 (changePair r.nw_total r.nnw_total).1
      ∧ r.nnw_change_rate = persistRate (changePair r.nw_total r.nnw_total).2)
    ∧ (∀ prev cur : ℚ, 0 ≤ prev →
        (changePair prev cur).1 = cur - prev
        ∧ (0 < prev → (changePair prev cur).2 = some ((cur - prev) / prev * 100))
        ∧ (prev = 0 → cur = 0 → persistRate (changePair prev cur).2 = 0)
        ∧ (prev = 0 → cur ≠ 0 → persistRate (changePair prev cur).2 = 0))
    ∧ 0 ≤ r.cw_total ∧ 0 ≤ r.nw_total ∧ 0 ≤ r.nnw_total := by
  subst hr
  have hph : 0 ≤ (if pm.contains row.member then st.primary_responsibility_hours else 0) := by
    split
    · exact hpr
    · exact le_rfl
  have htot : ∀ a b : ℤ,
      0 ≤ projectHours hdrs row.hours a b
        + (st.other_tasks_hours
            + (if pm.contains row.member then st.primary_responsibility_hours else 0)) := by
    intro a b
    have := projectHours_nonneg hdrs row.hours a b hhours
    linarith
  refine ⟨⟨rfl, rfl, rfl, rfl⟩, ?_, htot _ _, htot _ _, htot _ _⟩
  intro prev cur hprev
  refine ⟨?_, ?_, ?_, ?_⟩
  · unfold changePair
    split_ifs with hp hc
    · rfl
    · have hz : prev = 0 := le_antisymm (not_lt.mp hp) hprev
      show cur = cur - prev
      rw [hz, sub_zero]
    · have hz : prev = 0 := le_antisymm (not_lt.mp hp) hprev
      show cur = cur - prev
      rw [hz, sub_zero]
  · intro hp
    unfold changePair
    rw [if_pos hp]
  · intro hz hc
    unfold changePair
    rw [if_neg (by rw [hz]; exact lt_irrefl 0), if_pos hc]
    show round1 0 = 0
    norm_num [round1, roundHalfEven]
  · intro hz hc
    unfold changePair
    rw [if_neg (by rw [hz]; exact lt_irrefl 0), if_neg hc]
    rfl

/-- Witness for C4 with the default configuration and one member. -/
theorem c4_change_and_rate_witness :
    (memberResult (processorInit cfgDefault) [] [some 8] ⟨"甲", [8]⟩ 1).nw_change
      = round1 (changePair
          (memberResult (processorInit cfgDefault) [] [some 8] ⟨"甲", [8]⟩ 1).cw_total
          (memberResult (processorInit cfgDefault) [] [some 8] ⟨"甲", [8]⟩ 1).nw_total).1 :=
  (c4_change_and_rate (processorInit cfgDefault) [] [some 8] ⟨"甲", [8]⟩ 1 _ rfl
    (by intro x hx; simp at hx; rw [hx]; norm_num)
    (by norm_num [processorInit, cfgDefault])
    (by norm_num [processorInit, cfgDefault])).1.1

/-- Membership through `insertAsc`. -/
theorem mem_insertAsc {α : Type} (key : α → ℚ) (x z : α) :
    ∀ l : List α, z ∈ insertAsc key x l ↔ z = x ∨ z ∈ l
  | [] => by simp [insertAsc]
  | y :: ys => by
    simp only [insertAsc]
    split_ifs with h
    · simp [List.mem_cons]
    · rw [List.mem_cons, mem_insertAsc key x z ys, List.mem_cons]
      tauto

/-- `insertAsc` produces a permutation of consing the element. -/
theorem insertAsc_perm {α : Type} (key : α → ℚ) (x : α) :
    ∀ l : List α, (insertAsc key x l).Perm (x :: l)
  | [] => List.Perm.refl _
  | y :: ys => by
    simp only [insertAsc]
    split_ifs with h
    · exact List.Perm.refl _
    · exact ((insertAsc_perm key x ys).cons y).trans (List.Perm.swap x y ys)

/-- The insertion-sort loop permutes its input onto the accumulator. -/
theorem sortAsc_loop_perm {α : Type} (key : α → ℚ) :
    ∀ (l acc : List α),
      (l.foldl (fun a x => insertAsc key x a) acc).Perm (l ++ acc)
  | [], acc => by simp
  | x :: xs, acc => by
    simp only [List.foldl_cons]
    refine (sortAsc_loop_perm key xs (insertAsc key x acc)).trans ?_
    exact (List.Perm.append_left xs (insertAsc_perm key x acc)).trans List.perm_middle

/-- `sortAsc` is a permutation. -/
theorem sortAsc_perm {α : Type} (key : α → ℚ) (l : List α) :
    (sortAsc key l).Perm l := by
  have h := sortAsc_loop_perm key l []
  simpa [sortAsc] using h

/-- `insertAsc` preserves ascending sortedness. -/
theorem insertAsc_pairwise {α : Type} (key : α → ℚ) (x : α) :
    ∀ l : List α, l.Pairwise (fun a b => key a ≤ key b) →
      (insertAsc key x l).Pairwise (fun a b => key a ≤ key b)
  | [], _ => by simp [insertAsc]
  | y :: ys, h => by
    rw [List.pairwise_cons] at h
    obtain ⟨hy, hys⟩ := h
    simp only [insertAsc]
    split_ifs with hxy
    · refine List.Pairwise.cons ?_ (List.Pairwise.cons hy hys)
      intro z hz
      rcases List.mem_cons.mp hz with rfl | hz
      · exact le_of_lt hxy
      · exact le_trans (le_of_lt hxy) (hy z hz)
    · refine List.Pairwise.cons ?_ (insertAsc_pairwise key x ys hys)
      intro z hz
      rcases (mem_insertAsc key x z ys).mp hz with rfl | hz
      · exact not_lt.mp hxy
      · exact hy z hz

/-- The insertion-sort loop keeps the accumulator ascending. -/
theorem sortAsc_loop_pairwise {α : Type} (key : α → ℚ) :
    ∀ (l acc : List α), acc.Pairwise (fun a b => key a ≤ key b) →
      (l.foldl (fun a x => insertAsc key x a) acc).Pairwise
        (fun a b => key a ≤ key b)
  | [], _, h => h
  | x :: xs, acc, h => by
    simp only [List.foldl_cons]
    exact sortAsc_loop_pairwise key xs _ (insertAsc_pairwise key x acc h)

/-- `sortAsc` sorts ascending by the key. -/
theorem sortAsc_pairwise {α : Type} (key : α → ℚ) (l : List α) :
    (sortAsc key l).Pairwise (fun a b => key a ≤ key b) :=
  sortAsc_loop_pairwise key l [] List.Pairwise.nil

/-- Inserting an element no smaller than every list element appends it. -/
theorem insertAsc_append {α : Type} (key : α → ℚ) (x : α) :
    ∀ l : List α, (∀ y ∈ l, ¬ key x < key y) → insertAsc key x l = l ++ [x]
  | [], _ => rfl
  | y :: ys, h => by
    simp only [insertAsc]
    rw [if_neg (h y (List.mem_cons_self y ys)),
      insertAsc_append key x ys (fun z hz => h z (List.mem_cons_of_mem y hz))]
    rfl

/-- On an all-tied list the insertion-sort loop appends in input order. -/
theorem sortAsc_loop_const {α : Type} (key : α → ℚ) (k : ℚ) :
    ∀ (l acc : List α), (∀ a ∈ l, key a = k) → (∀ a ∈ acc, key a = k) →
      l.foldl (fun a x => insertAsc key x a) acc = acc ++ l
  | [], acc, _, _ => by simp
  | x :: xs, acc, hl, hacc => by
    simp only [List.foldl_cons]
    have hx : key x = k := hl x (List.mem_cons_self x xs)
    have hins : insertAsc key x acc = acc ++ [x] :=
      insertAsc_append key x acc
        (fun y hy => by rw [hx, hacc y hy]; exact lt_irrefl k)
    rw [hins, sortAsc_loop_const key k xs (acc ++ [x])
        (fun a ha => hl a (List.mem_cons_of_mem x ha))
        (fun a ha => by
          rcases List.mem_append.mp ha with h | h
          · exact hacc a h
          · rw [List.mem_singleton.mp h]; exact hx)]
    simp

/-- `sortAsc` leaves an all-tied list unchanged (it is stable). -/
theorem sortAsc_const {α : Type} (key : α → ℚ) (k : ℚ) (l : List α)
    (h : ∀ a ∈ l, key a = k) : sortAsc key l = l := by
  have h2 := sortAsc_loop_const key k l [] h (by intro a ha; cases ha)
  simpa [sortAsc] using h2

/-- Filtering a tie class through `insertAsc` into an ascending-sorted list:
an element of the class is appended after the class, any other element
leaves the class subsequence unchanged. -/
theorem filter_insertAsc {α : Type} (key : α → ℚ) (k : ℚ) (x : α) :
    ∀ l : List α, l.Pairwise (fun a b => key a ≤ key b) →
      (insertAsc key x l).filter (fun a => decide (key a = k))
        = if key x = k
          then l.filter (fun a => decide (key a = k)) ++ [x]
          else l.filter (fun a => decide (key a = k))
  | [], _ => by
    by_cases hx : key x = k <;> simp [insertAsc, hx]
  | y :: ys, hp => by
    rw [List.pairwise_cons] at hp
    obtain ⟨hy, hys⟩ := hp
    simp only [insertAsc]
    by_cases hxy : key x < key y
    · rw [if_pos hxy]
      by_cases hx : key x = k
      · have hfil : (y :: ys).filter (fun a => decide (key a = k)) = [] := by
          rw [List.filter_eq_nil_iff]
          intro z hz
          simp only [decide_eq_true_eq]
          intro e
          rcases List.mem_cons.mp hz with rfl | hz'
          · rw [e, ← hx] at hxy
            exact lt_irrefl _ hxy
          · have hlt : key x < key z := lt_of_lt_of_le hxy (hy z hz')
            rw [e, ← hx] at hlt
            exact lt_irrefl _ hlt
        rw [if_pos hx]
        simp [List.filter_cons, hx, hfil]
      · rw [if_neg hx]
        simp [List.filter_cons, hx]
    · rw [if_neg hxy]
      have IH := filter_insertAsc key k x ys hys
      by_cases hyk : key y = k <;> by_cases hx : key x = k <;>
        simp [List.filter_cons, hyk, hx, IH]

/-- The insertion-sort loop preserves every tie-class subsequence, appending
the new elements of the class in arrival order. -/
theorem filter_sortAsc_loop {α : Type} (key : α → ℚ) (k : ℚ) :
    ∀ (l acc : List α), acc.Pairwise (fun a b => key a ≤ key b) →
      (l.foldl (fun a x => insertAsc key x a) acc).filter
          (fun a => decide (key a = k))
        = acc.filter (fun a => decide (key a = k))
          ++ l.filter (fun a => decide (key a = k))
  | [], _, _ => by simp
  | x :: xs, acc, h => by
    simp only [List.foldl_cons]
    rw [filter_sortAsc_loop key k xs (insertAsc key x acc)
        (insertAsc_pairwise key x acc h),
      filter_insertAsc key k x acc h]
    by_cases hx : key x = k <;> simp [List.filter_cons, hx]

/-- `sortAsc` is stable: every tie-class subsequence of the output equals
the input's. -/
theorem filter_sortAsc {α : Type} (key : α → ℚ) (k : ℚ) (l : List α) :
    (sortAsc key l).filter (fun a => decide (key a = k))
      = l.filter (fun a => decide (key a = k)) := by
  have h := filter_sortAsc_loop key k l [] List.Pairwise.nil
  simpa [sortAsc] using h

/-- C5: the output of the descending sort is non-increasing in the key and a
permutation of its input, and the sort is stable: for every key value the
rows carrying it appear in the output in exactly their input order (pandas
reverses values and index positions before the stable ascending argsort and
reverses the indexer after, so the two reversals cancel on ties);
`calculate_workload`'s successful output is non-increasing in the persisted
next-week saturation. -/
theorem c5_sorted_descending_and_stable {α : Type} (key : α → ℚ) (l : List α) :
    (sort_values_desc key l).Pairwise (fun a b => key b ≤ key a)
    ∧ (sort_values_desc key l).Perm l
    ∧ (∀ k : ℚ, (sort_values_desc key l).filter (fun a => decide (key a = k))
        = l.filter (fun a => decide (key a = k)))
    ∧ (∀ (st : ProcState) (t : InputTable) (pm : List String) (base : ℤ)
        (rows : List ResultRow),
        calculate_workload st t pm base = .ok rows →
        rows.Pairwise (fun a b => b.nw_saturation ≤ a.nw_saturation)) := by
  refine ⟨?_, ?_, ?_, ?_⟩
  · unfold sort_values_desc
    rw [List.pairwise_reverse]
    exact sortAsc_pairwise key l.reverse
  · exact ((List.reverse_perm _).trans (sortAsc_perm key l.reverse)).trans
      (List.reverse_perm l)
  · intro k
    unfold sort_values_desc
    rw [List.filter_reverse, filter_sortAsc, List.filter_reverse,
      List.reverse_reverse]
  · intro st t pm base rows h
    unfold calculate_workload at h
    split at h
    · simp at h
    · split_ifs at h with hres
      rw [← Except.ok.inj h]
      unfold sort_values_desc
      rw [List.pairwise_reverse]
      exact sortAsc_pairwise _ _

/-- When the member column exists the loop maps `memberResult` over the rows
and never fails. -/
theorem processRows_ok (st : ProcState) (pm : List String)
    (hdrs : List (Option ℤ)) (base : ℤ) :
    ∀ rows : List MemberRow,
      processRows st pm hdrs base true rows
        = .ok (rows.map (fun r => memberResult st pm hdrs r base))
  | [] => rfl
  | r :: rs => by
    simp only [processRows, rowMember, List.map_cons, if_true]
    rw [processRows_ok st pm hdrs base rs]

/-- C8 (counterexample): on a zero-row table with well-formed columns,
`calculate_workload` fails with the pandas `KeyError` for the sort column
(raised after the per-row loop), not with a structural-input error. -/
theorem c8_counterexample_zero_rows :
    calculate_workload (processorInit cfgDefault) tableEmptyRows [] 1
        = .error (.keyError "下周饱和度(%)")
    ∧ isStructuralError
        (calculate_workload (processorInit cfgDefault) tableEmptyRows [] 1) = false := by
  exact ⟨rfl, rfl⟩

/-- C8 (amended): `calculate_workload` does fail (it returns no result) on a
zero-row table or a table lacking the member column, but via key-lookup
errors, not a structural pre-check: a zero-row table reaches the final sort
and fails on the missing sort column, and a missing member column fails
inside the first loop iteration on `row['成员']`; the structural validator
`validate_excel_structure` is never invoked by the calculation. -/
theorem c8_failure_modes (st : ProcState) (pm : List String) (base : ℤ)
    (t : InputTable) :
    (t.rows = [] →
        calculate_workload st t pm base = .error (.keyError "下周饱和度(%)"))
    ∧ (t.hasMemberColumn = false → t.rows ≠ [] →
        calculate_workload st t pm base = .error (.keyError "成员")) := by
  constructor
  · intro h
    unfold calculate_workload
    rw [h]
    rfl
  · intro hcol hne
    obtain ⟨r, rs, hr⟩ : ∃ r rs, t.rows = r :: rs := by
      cases hrows : t.rows with
      | nil => exact absurd hrows hne
      | cons a as => exact ⟨a, as, rfl⟩
    unfold calculate_workload
    rw [hr, hcol]
    simp [processRows, rowMember]

/-- Witness for C8 (amended) on a table lacking the member column. -/
theorem c8_failure_modes_witness :
    calculate_workload (processorInit cfgDefault) tableNoMemberCol [] 1
        = .error (.keyError "成员") :=
  (c8_failure_modes (processorInit cfgDefault) [] 1 tableNoMemberCol).2 rfl
    (by decide)

/-- C9 (amended): the validator does classify each invalid configuration as a
distinct inspectable failure (shown here for a missing
`standard_hours_per_week` key and for a non-positive value), but the
calculator never invokes it: `__init__` silently substitutes defaults for
missing keys, and `calculate_workload` produces saturation rows for any
configuration whatsoever. -/
theorem c9_rejection_vs_coercion (config : ConfigDict) :
    (config.standard_hours_per_week = none →
        validate_config config
          = (false, some "缺少必需配置项: standard_hours_per_week"))
    ∧ (∀ sh : ℚ, config.standard_hours_per_week = some sh → sh ≤ 0 →
        config.other_tasks ≠ none → config.saturation_thresholds ≠ none →
        validate_config config = (false, some "标准工时必须为正数"))
    ∧ (processorInit config).standard_hours
        = config.standard_hours_per_week.getD 40
    ∧ (processorInit config).under_saturated_max
        = (config.saturation_thresholds.getD emptyThresholds).under_saturated_max.getD 90
    ∧ (processorInit config).normal_max
        = (config.saturation_thresholds.getD emptyThresholds).normal_max.getD 110
    ∧ (∀ (t : InputTable) (pm : List String) (base : ℤ),
        t.hasMemberColumn = true → t.rows ≠ [] →
        calculate_workload (processorInit config) t pm base
          = .ok (sort_values_desc (fun r => r.nw_saturation)
              (t.rows.map
                (fun r => memberResult (processorInit config) pm t.dateHeaders r base)))) := by
  refine ⟨?_, ?_, rfl, rfl, rfl, ?_⟩
  · intro h
    simp [validate_config, h]
  · intro sh hsh hle hot hth
    obtain ⟨ot, hot'⟩ := Option.ne_none_iff_exists'.mp hot
    obtain ⟨th, hth'⟩ := Option.ne_none_iff_exists'.mp hth
    simp [validate_config, hsh, hot', hth', hle]
  · intro t pm base hcol hne
    have hmap : List.map
        (fun r => memberResult (processorInit config) pm t.dateHeaders r base)
        t.rows ≠ [] := by
      intro hm
      cases hrows : t.rows with
      | nil => exact hne hrows
      | cons a as => rw [hrows] at hm; simp at hm
    unfold calculate_workload
    rw [hcol, processRows_ok]
    simp [hmap]

/-- Witness for C9 (amended) at the empty configuration. -/
theorem c9_rejection_vs_coercion_witness :
    validate_config cfgEmpty
      = (false, some "缺少必需配置项: standard_hours_per_week") :=
  (c9_rejection_vs_coercion cfgEmpty).1 rfl

set_option maxHeartbeats 1000000 in
/-- Witness for C5: on the two-member tied table the full pipeline keeps the
input order 甲, 乙 (both rows carry next-week saturation 23.8), and the
theorem's sortedness conclusion applies to that concrete output. -/
theorem c5_sorted_descending_and_stable_witness :
    List.Pairwise (fun a b : ResultRow => b.nw_saturation ≤ a.nw_saturation)
      [rowTied "甲", rowTied "乙"] :=
  (c5_sorted_descending_and_stable
      (fun r : ResultRow => r.nw_saturation) []).2.2.2
    (processorInit cfgDefault) tableTied [] 1 [rowTied "甲", rowTied "乙"]
    (by norm_num [calculate_workload, processRows, rowMember, memberResult,
      processorInit, cfgDefault, tableTied, rowTied, projectHours, inWindow,
      get_week_range, weekday, saturation, round1, roundHalfEven, changePair,
      persistRate, sort_values_desc, sortAsc, insertAsc, emptyOther,
      emptyPrimary, emptyThresholds, get_status, List.filter, List.zip,
      List.zipWith, Option.getD, List.cons_ne_nil, ResultRow.mk.injEq])

set_option maxHeartbeats 1000000 in
/-- C9 (counterexample): the empty configuration is rejected by the validator
(missing required keys), yet the processor initializes from it without any
failure — silently coercing every missing key to its default (40 hours,
other tasks enabled at 92 minutes, primary responsibility enabled at 50%,
thresholds 90/110) — and the calculation then produces saturation numbers
(next-week saturation 23.8 for a member with 8 booked hours). -/
theorem c9_counterexample_defaults_coerced :
    (validate_config cfgEmpty).1 = false
    ∧ processorInit cfgEmpty = ⟨40, true, 92, 92 / 60, true, 1 / 2, 20, 90, 110⟩
    ∧ (calculate_workload (processorInit cfgEmpty) tableOneRow [] 1).map
        (fun l => l.map (fun r => r.nw_saturation)) = Except.ok [119 / 5] := by
  refine ⟨rfl, ?_, ?_⟩
  · norm_num [processorInit, cfgEmpty, emptyOther, emptyPrimary,
      emptyThresholds, ProcState.mk.injEq, Option.getD]
  · norm_num [calculate_workload, processRows, rowMember, memberResult,
      processorInit, cfgEmpty, tableOneRow, projectHours, inWindow,
      get_week_range, weekday, saturation, round1, roundHalfEven, changePair,
      persistRate, sort_values_desc, sortAsc, insertAsc, emptyOther,
      emptyPrimary, emptyThresholds, get_status, Except.map, List.filter,
      List.zip, List.zipWith, Option.getD, List.cons_ne_nil]
